import Mathlib

/-!
Verification of the mender-stress-test-client fleet simulation engine.

Shallow embedding of `src/main.go` and `src/auth.go`:
the shared failure-budget counters (`updatesPerformed`, `updatesLeftToFail`),
the locked outcome decision in `performFakeUpdate`, the unlocked reset check
in `checkForNewUpdate`, the phase-reporting loop, startup staggering,
authentication retry, phase dwell times, sub-state reporting and inventory
parsing.  Counters are modelled as unbounded naturals: the Go `int` counters
only grow by one per simulated update, so 64-bit overflow is out of reach for
every property considered here.
-/

namespace StressClient

/-- Configuration relevant to the failure budget (main.go lines 25-46):
`-count`, `-failcount`, `-fail`. -/
structure Config where
  menderClientCount : Nat
  updateFailCount : Nat
  updateFailMsg : String

/-- The two shared global counters (main.go lines 40-41). -/
structure GState where
  updatesPerformed : Nat
  updatesLeftToFail : Nat
deriving DecidableEq, Repr

/-- Terminal phase of one simulated update. -/
inductive Outcome where
  | success
  | failure
deriving DecidableEq, Repr

/-- The reset check at the top of `checkForNewUpdate` (main.go lines 229-231):
if `updatesPerformed > 0 && updatesPerformed%menderClientCount == 0` then
`updatesLeftToFail = updateFailCount`.  In the Go source this read and write
happen *outside* the mutex. -/
def resetCheck (cfg : Config) (s : GState) : GState :=
  if 0 < s.updatesPerformed ∧ s.updatesPerformed % cfg.menderClientCount = 0 then
    { s with updatesLeftToFail := cfg.updateFailCount }
  else
    s

/-- The locked section of `performFakeUpdate` (main.go lines 259-267):
under `lock`, if `len(updateFailMsg) > 0 && updatesLeftToFail > 0` choose
"failure" and decrement `updatesLeftToFail`, else choose "success";
always increment `updatesPerformed`. -/
def decideLocked (cfg : Config) (s : GState) : Outcome × GState :=
  if 0 < cfg.updateFailMsg.length ∧ 0 < s.updatesLeftToFail then
    (Outcome.failure, ⟨s.updatesPerformed + 1, s.updatesLeftToFail - 1⟩)
  else
    (Outcome.success, ⟨s.updatesPerformed + 1, s.updatesLeftToFail⟩)

/-- One full update decision as it happens on the path that performs an
update: the reset check of `checkForNewUpdate` followed by the locked
section of `performFakeUpdate`. -/
def combinedOp (cfg : Config) (s : GState) : Outcome × GState :=
  decideLocked cfg (resetCheck cfg s)

/-- Initial counter state (main.go lines 77 and 92):
`updatesPerformed = 0`, `updatesLeftToFail = updateFailCount`. -/
def initState (cfg : Config) : GState :=
  ⟨0, cfg.updateFailCount⟩

/-- Counter state after `k` serialized update decisions starting from the
initial state. -/
def stateAfter (cfg : Config) : Nat → GState
  | 0 => initState cfg
  | k + 1 => (combinedOp cfg (stateAfter cfg k)).2

/-- Terminal outcome of the `k`-th serialized update (0-indexed). -/
def outcomeAt (cfg : Config) (k : Nat) : Outcome :=
  (combinedOp cfg (stateAfter cfg k)).1

/-- Position of update number `k` inside its fleet-size window, counted
after the update: `0` initially, and in `1..N` afterwards. -/
def windowPos (N k : Nat) : Nat :=
  if k = 0 then 0 else (k - 1) % N + 1

lemma resetCheck_updatesPerformed (cfg : Config) (s : GState) :
    (resetCheck cfg s).updatesPerformed = s.updatesPerformed := by
  unfold resetCheck
  split <;> rfl

lemma stateAfter_updatesPerformed (cfg : Config) (k : Nat) :
    (stateAfter cfg k).updatesPerformed = k := by
  induction k with
  | zero => rfl
  | succ k ih =>
    show (combinedOp cfg (stateAfter cfg k)).2.updatesPerformed = k + 1
    unfold combinedOp decideLocked
    split <;> simp [resetCheck_updatesPerformed, ih]

lemma mod_pred_succ {N k : Nat} (hk : 0 < k) (hm : k % N ≠ 0) :
    (k - 1) % N + 1 = k % N := by
  obtain ⟨j, rfl⟩ : ∃ j, k = j + 1 := ⟨k - 1, by omega⟩
  simp only [Nat.add_sub_cancel]
  rcases Nat.eq_zero_or_pos N with hN | hN
  · subst hN; simp
  · rcases Nat.lt_or_ge N 2 with hN2 | hN2
    · interval_cases N
      · omega
    · have h1 : (j + 1) % N = (j % N + 1) % N := by
        conv_lhs => rw [Nat.add_mod]
        rw [Nat.mod_eq_of_lt hN2]
      have h2 : j % N < N := Nat.mod_lt _ hN
      rcases Nat.lt_or_ge (j % N + 1) N with h3 | h3
      · rw [h1, Nat.mod_eq_of_lt h3]
      · have h4 : j % N + 1 = N := by omega
        rw [h1, h4, Nat.mod_self] at hm
        exact absurd rfl hm

lemma stateAfter_updatesLeftToFail (N F : Nat) (msg : String)
    (hmsg : 0 < msg.length) (k : Nat) :
    (stateAfter ⟨N, F, msg⟩ k).updatesLeftToFail = F - windowPos N k := by
  induction k with
  | zero => simp [stateAfter, initState, windowPos]
  | succ k ih =>
    have hperf := stateAfter_updatesPerformed ⟨N, F, msg⟩ k
    have hpost : (resetCheck ⟨N, F, msg⟩ (stateAfter ⟨N, F, msg⟩ k)).updatesLeftToFail
        = F - k % N := by
      unfold resetCheck
      rw [hperf]
      split_ifs with h
      · have : k % N = 0 := h.2
        simp [this]
      · rcases Nat.eq_zero_or_pos k with hk | hk
        · subst hk
          simpa [windowPos] using ih
        · have hm : k % N ≠ 0 := by
            intro h0
            exact h ⟨hk, h0⟩
          rw [ih, windowPos, if_neg (by omega), mod_pred_succ hk hm]
    show (decideLocked ⟨N, F, msg⟩ _).2.updatesLeftToFail = F - windowPos N (k + 1)
    have hwp : windowPos N (k + 1) = k % N + 1 := by
      simp [windowPos]
    unfold decideLocked
    split_ifs with h
    · have h2 := h.2
      rw [hpost] at h2 ⊢
      simp only [hwp]
      omega
    · have h2 : ¬ 0 < (resetCheck ⟨N, F, msg⟩ (stateAfter ⟨N, F, msg⟩ k)).updatesLeftToFail := by
        intro hpos
        exact h ⟨hmsg, hpos⟩
      rw [hpost] at h2
      simp only [hwp, hpost]
      omega

/-- After the reset check at the top of the `k`-th update decision, the
remaining-failures counter holds `F - k % N`. -/
lemma postReset_updatesLeftToFail (N F : Nat) (msg : String)
    (hmsg : 0 < msg.length) (k : Nat) :
    (resetCheck ⟨N, F, msg⟩ (stateAfter ⟨N, F, msg⟩ k)).updatesLeftToFail = F - k % N := by
  have hperf := stateAfter_updatesPerformed ⟨N, F, msg⟩ k
  unfold resetCheck
  rw [hperf]
  split_ifs with h
  · have : k % N = 0 := h.2
    simp [this]
  · rcases Nat.eq_zero_or_pos k with hk | hk
    · subst hk
      simpa [windowPos] using stateAfter_updatesLeftToFail N F msg hmsg 0
    · have hm : k % N ≠ 0 := by
        intro h0
        exact h ⟨hk, h0⟩
      rw [stateAfter_updatesLeftToFail N F msg hmsg k, windowPos, if_neg (by omega),
        mod_pred_succ hk hm]

/-- The `k`-th serialized update fails exactly when its position in the
current fleet-size window is below the configured failure target. -/
lemma outcomeAt_eq_failure_iff (N F : Nat) (msg : String)
    (hmsg : 0 < msg.length) (k : Nat) :
    outcomeAt ⟨N, F, msg⟩ k = Outcome.failure ↔ k % N < F := by
  have hpost := postReset_updatesLeftToFail N F msg hmsg k
  unfold outcomeAt combinedOp decideLocked
  split_ifs with h
  · have h2 := h.2
    rw [hpost] at h2
    simp only [true_iff]
    omega
  · have h2 : ¬ 0 < (resetCheck ⟨N, F, msg⟩ (stateAfter ⟨N, F, msg⟩ k)).updatesLeftToFail := by
      intro hpos
      exact h ⟨hmsg, hpos⟩
    rw [hpost] at h2
    constructor
    · intro hcontra
      exact absurd hcontra (by simp)
    · intro hlt
      omega

/-- In every block of `N` consecutive integers, exactly `F` have residue
below `F` modulo `N` (for `F ≤ N`, `0 < N`). -/
lemma card_window_residues (N F : Nat) (_hN : 0 < N) (hF : F ≤ N) (i : Nat) :
    ((Finset.Ico i (i + N)).filter (fun k => k % N < F)).card = F := by
  induction i with
  | zero =>
    have h0 : Finset.Ico 0 (0 + N) = Finset.range N := by
      rw [Nat.zero_add, Finset.range_eq_Ico]
    rw [h0]
    have h1 : (Finset.range N).filter (fun k => k % N < F)
        = (Finset.range N).filter (fun k => k < F) := by
      apply Finset.filter_congr
      intro k hk
      rw [Nat.mod_eq_of_lt (Finset.mem_range.mp hk)]
    have h2 : (Finset.range N).filter (fun k => k < F) = Finset.range F := by
      ext x
      simp only [Finset.mem_filter, Finset.mem_range]
      omega
    rw [h1, h2, Finset.card_range]
  | succ i ih =>
    have hsplitA : Finset.Ico i (i + N + 1)
        = Finset.Ico i (i + N) ∪ Finset.Ico (i + N) (i + N + 1) :=
      (Finset.Ico_union_Ico_eq_Ico (by omega) (by omega)).symm
    have hsplitB : Finset.Ico i (i + N + 1)
        = Finset.Ico i (i + 1) ∪ Finset.Ico (i + 1) (i + N + 1) :=
      (Finset.Ico_union_Ico_eq_Ico (by omega) (by omega)).symm
    have hsingA : Finset.Ico (i + N) (i + N + 1) = {i + N} := Nat.Ico_succ_singleton (i + N)
    have hsingB : Finset.Ico i (i + 1) = {i} := Nat.Ico_succ_singleton i
    have hdA : Disjoint (Finset.Ico i (i + N)) (Finset.Ico (i + N) (i + N + 1)) :=
      Finset.Ico_disjoint_Ico_consecutive i (i + N) (i + N + 1)
    have hdB : Disjoint (Finset.Ico i (i + 1)) (Finset.Ico (i + 1) (i + N + 1)) :=
      Finset.Ico_disjoint_Ico_consecutive i (i + 1) (i + N + 1)
    have hcardA : ((Finset.Ico i (i + N + 1)).filter (fun k => k % N < F)).card
        = ((Finset.Ico i (i + N)).filter (fun k => k % N < F)).card
          + (({i + N} : Finset Nat).filter (fun k => k % N < F)).card := by
      rw [hsplitA, Finset.filter_union, hsingA,
        Finset.card_union_of_disjoint (Finset.disjoint_filter_filter (hsingA ▸ hdA))]
    have hcardB : ((Finset.Ico i (i + N + 1)).filter (fun k => k % N < F)).card
        = (({i} : Finset Nat).filter (fun k => k % N < F)).card
          + ((Finset.Ico (i + 1) (i + 1 + N)).filter (fun k => k % N < F)).card := by
      have harr : i + 1 + N = i + N + 1 := by omega
      rw [hsplitB, Finset.filter_union, hsingB, harr,
        Finset.card_union_of_disjoint (Finset.disjoint_filter_filter (hsingB ▸ hdB))]
    have hres : (i + N) % N = i % N := Nat.add_mod_right i N
    have hsame : (({i + N} : Finset Nat).filter (fun k => k % N < F)).card
        = (({i} : Finset Nat).filter (fun k => k % N < F)).card := by
      rw [Finset.filter_singleton, Finset.filter_singleton]
      simp only [hres]
      split <;> simp
    rw [ih] at hcardA
    omega

/-- Claim C1: with a non-empty failure message and failure target
`F ≤ N` (`N` = fleet size), every window of exactly `N` consecutive
completed fake updates contains exactly `F` updates whose terminal phase is
"failure", and whenever the completed-update counter has crossed a positive
multiple of the fleet size, the reset check at the top of the next update
decision restores the remaining-failures counter to `F`.  Updates are
numbered from 0; the window starting at update `i` is `[i, i + N)`.
Proved for the serialized semantics in which each update's reset check and
locked decision run back to back without interleaving (atomicity itself is
the subject of claim C3). -/
theorem C1_fleet_failure_budget (N F : Nat) (msg : String) (i k : Nat)
    (hN : 0 < N) (hF : F ≤ N) (hmsg : 0 < msg.length)
    (hk : 0 < k) (hdvd : N ∣ k) :
    ((Finset.Ico i (i + N)).filter
        (fun j => outcomeAt ⟨N, F, msg⟩ j = Outcome.failure)).card = F ∧
    (resetCheck ⟨N, F, msg⟩ (stateAfter ⟨N, F, msg⟩ k)).updatesLeftToFail = F := by
  constructor
  · have hcongr : (Finset.Ico i (i + N)).filter
        (fun j => outcomeAt ⟨N, F, msg⟩ j = Outcome.failure)
        = (Finset.Ico i (i + N)).filter (fun j => j % N < F) := by
      apply Finset.filter_congr
      intro j _
      exact outcomeAt_eq_failure_iff N F msg hmsg j
    rw [hcongr]
    exact card_window_residues N F hN hF i
  · rw [postReset_updatesLeftToFail N F msg hmsg k]
    obtain ⟨m, rfl⟩ := hdvd
    rw [Nat.mul_mod_right]
    omega

/-- Concrete instance of claim C1: fleet size 2, failure target 1,
failure message "x"; the window of updates 1 and 2 holds exactly one
failure, and after update 2 the reset check restores the budget to 1. -/
theorem C1_fleet_failure_budget_witness :
    ((Finset.Ico 1 (1 + 2)).filter
        (fun j => outcomeAt ⟨2, 1, "x"⟩ j = Outcome.failure)).card = 1 ∧
    (resetCheck ⟨2, 1, "x"⟩ (stateAfter ⟨2, 1, "x"⟩ 2)).updatesLeftToFail = 1 :=
  C1_fleet_failure_budget 2 1 "x" 1 2 (by decide) (by decide) (by decide)
    (by decide) (by decide)

/-- Claim C2 is false as stated: the reset of the remaining-failures
counter does not happen "when the new completedCount is a multiple of fleet
size ... within the same atomic operation".  Concrete refutation with fleet
size 2, target 1, message "fail": the state with `updatesPerformed = 1`,
`updatesLeftToFail = 0` is reached after one update; the next update
decision raises `updatesPerformed` to 2 — a multiple of the fleet size —
yet leaves `updatesLeftToFail` at 0 instead of resetting it to the target 1.
The reset only happens at the start of the following invocation. -/
theorem C2_reset_timing_counterexample :
    stateAfter ⟨2, 1, "fail"⟩ 1 = ⟨1, 0⟩ ∧
    (combinedOp ⟨2, 1, "fail"⟩ ⟨1, 0⟩).2.updatesPerformed = 2 ∧
    2 % 2 = 0 ∧
    (combinedOp ⟨2, 1, "fail"⟩ ⟨1, 0⟩).2.updatesLeftToFail = 0 ∧
    (0 : Nat) ≠ 1 := by
  refine ⟨by decide, by decide, by decide, by decide, by decide⟩

/-- Claim C2 as amended: one update decision (reset check of
`checkForNewUpdate` plus the locked section of `performFakeUpdate`) first
resets the remaining-failures counter to the configured target when the
*pre-increment* completed count is a positive multiple of the fleet size
(this reset check runs outside the lock, in `checkForNewUpdate`); then,
with `r'` the post-reset remaining-failures value, it returns Failure and
decrements exactly when a failure message is configured and `r' > 0`,
otherwise returns Success; and it always increments the completed count by
one.  No reset happens inside the invocation that makes the count reach a
multiple of the fleet size. -/
theorem C2_decideOutcome_amended (N F p r : Nat) (msg : String) :
    combinedOp ⟨N, F, msg⟩ ⟨p, r⟩ =
      (if 0 < msg.length ∧ 0 < (if 0 < p ∧ p % N = 0 then F else r) then
        (Outcome.failure, ⟨p + 1, (if 0 < p ∧ p % N = 0 then F else r) - 1⟩)
      else
        (Outcome.success, ⟨p + 1, if 0 < p ∧ p % N = 0 then F else r⟩)) := by
  unfold combinedOp resetCheck decideLocked
  split_ifs with h1 h2 h3 <;> simp_all

/-- Concrete instance of the amended claim C2: fleet size 2, target 1,
message "x", invoked at `updatesPerformed = 2`, `updatesLeftToFail = 0`:
the stale budget is first reset to 1, so the update fails, the budget drops
back to 0 and the completed count becomes 3. -/
theorem C2_decideOutcome_amended_witness :
    combinedOp ⟨2, 1, "x"⟩ ⟨2, 0⟩ = (Outcome.failure, ⟨3, 0⟩) :=
  (C2_decideOutcome_amended 2 1 2 0 "x").trans (by decide)

/-- One unsynchronized micro-step of a device task, at the granularity the
Go source actually provides: the reset check in `checkForNewUpdate` runs
outside the mutex, the decide/increment section runs under it. -/
inductive MicroStep where
  | resetStep
  | decideStep
deriving DecidableEq, Repr

/-- Run an interleaving of micro-steps from several device tasks over the
shared counters, collecting the terminal outcome chosen by each locked
decide section in completion order. -/
def runSched (cfg : Config) : List MicroStep → GState → List Outcome × GState
  | [], s => ([], s)
  | MicroStep.resetStep :: rest, s => runSched cfg rest (resetCheck cfg s)
  | MicroStep.decideStep :: rest, s =>
    let os := runSched cfg rest (decideLocked cfg s).2
    ((decideLocked cfg s).1 :: os.1, os.2)

/-- An interleaving of two device tasks A and B, each performing two update
cycles (cycle = reset check, then locked decide): A's steps are positions
1,2,3,5 and B's are positions 4,6,7,8, so each task alternates reset and
decide as in the Go source.  B's first reset check reads `updatesPerformed`
before A's second decide publishes the value 2, so the fleet-size-aligned
reset is missed. -/
def missedResetSchedule : List MicroStep :=
  [MicroStep.resetStep, MicroStep.decideStep, MicroStep.resetStep,
   MicroStep.resetStep, MicroStep.decideStep, MicroStep.decideStep,
   MicroStep.resetStep, MicroStep.decideStep]

/-- Claim C3 names a real code bug: the read-decide-write sequence is *not*
one atomic unit, because the fleet-size-aligned reset in
`checkForNewUpdate` (main.go lines 229-231) reads and writes the shared
counters outside the mutex that guards `performFakeUpdate`'s decide
section.  With fleet size 2, failure target 1 and message "fail", the
realizable interleaving `missedResetSchedule` of two device tasks completes
four updates with outcomes failure, success, success, success: its second
window of two updates contains no failure, while the serialized semantics
(everything under one lock) puts exactly one failure in that window. -/
theorem C3_reset_outside_lock_bug :
    (runSched ⟨2, 1, "fail"⟩ missedResetSchedule ⟨0, 1⟩).1
      = [Outcome.failure, Outcome.success, Outcome.success, Outcome.success] ∧
    ((runSched ⟨2, 1, "fail"⟩ missedResetSchedule ⟨0, 1⟩).1.drop 2).count
      Outcome.failure = 0 ∧
    ((Finset.Ico 2 (2 + 2)).filter
      (fun j => outcomeAt ⟨2, 1, "fail"⟩ j = Outcome.failure)).card = 1 := by
  refine ⟨by decide, by decide, by decide⟩

/-- A status report as built in `performFakeUpdate` (main.go line 302):
deployment identifier, phase name, and sub-state description. -/
structure StatusReport where
  deploymentID : String
  status : String
  subState : String
deriving DecidableEq, Repr

/-- The sub-state attached to a report, from the `switch event` in
`performFakeUpdate` (main.go lines 291-300).  The `substateReporting`
configuration flag (main.go line 70) is declared and bound but never
consulted anywhere in the source, so the sub-state depends on the phase
name alone. -/
def substateFor (event : String) : String :=
  if event = "downloading" then "running predownload script"
  else if event = "installing" then "running preinstalling script"
  else if event = "rebooting" then "running prerebooting script"
  else ""

/-- Observable actions of `performFakeUpdate`'s reporting loop:
the artifact download (discarded to /dev/null), the synthetic failure-log
upload with its deployment id and message, and each status report together
with whether the backend accepted it. -/
inductive Ev where
  | download (ok : Bool)
  | uploadLog (deploymentID : String) (failMsg : String)
  | report (r : StatusReport) (ok : Bool)
deriving DecidableEq, Repr

/-- The phase list walked by `performFakeUpdate` (main.go lines 257-265):
three fixed phases plus the terminal phase chosen by the locked decision. -/
def reportingCycle (failing : Bool) : List String :=
  ["downloading", "installing", "rebooting"]
    ++ [if failing then "failure" else "success"]

/-- The body of `performFakeUpdate`'s `for _, event := range reportingCycle`
loop (main.go lines 269-308), as the list of actions it performs.
`downloadOk` is whether the fetch of the artifact URI succeeds (a fetch
error is only logged), `uploadOk` whether the failure-log upload succeeds
(an upload error is logged and the function returns, aborting all further
reporting), and `reportOk` whether each status report succeeds (a report
error is only logged). -/
def runEvents (did failMsg : String) (downloadOk uploadOk : Bool)
    (reportOk : String → Bool) : List String → List Ev
  | [] => []
  | e :: rest =>
    (if e = "downloading" then [Ev.download downloadOk] else [])
      ++ (if e = "failure" then
            if uploadOk then
              Ev.uploadLog did failMsg
                :: Ev.report ⟨did, e, substateFor e⟩ (reportOk e)
                :: runEvents did failMsg downloadOk uploadOk reportOk rest
            else
              [Ev.uploadLog did failMsg]
          else
            Ev.report ⟨did, e, substateFor e⟩ (reportOk e)
              :: runEvents did failMsg downloadOk uploadOk reportOk rest)

/-- The full action trace of one simulated update whose terminal outcome
has already been decided (`failing`). -/
def performFakeUpdateTrace (did failMsg : String)
    (failing downloadOk uploadOk : Bool) (reportOk : String → Bool) : List Ev :=
  runEvents did failMsg downloadOk uploadOk reportOk (reportingCycle failing)

/-- The phases reported to the backend, in order, from a trace. -/
def reportedPhases (tr : List Ev) : List String :=
  tr.filterMap (fun ev =>
    match ev with
    | Ev.report r _ => some r.status
    | _ => none)

/-- Claim C4 is false as stated: when the decided outcome is failure and
the failure-log upload fails, `performFakeUpdate` returns before reporting
the terminal phase, so the reported sequence is downloading, installing,
rebooting with *no* terminal phase at all.  Concrete run: deployment "d1",
message "boom", failing outcome, successful download, failed log upload,
all status reports accepted. -/
theorem C4_phase_order_counterexample :
    reportedPhases (performFakeUpdateTrace "d1" "boom" true true false
        (fun _ => true))
      = ["downloading", "installing", "rebooting"] ∧
    "failure" ∉ reportedPhases (performFakeUpdateTrace "d1" "boom" true true
        false (fun _ => true)) ∧
    "success" ∉ reportedPhases (performFakeUpdateTrace "d1" "boom" true true
        false (fun _ => true)) := by
  refine ⟨by decide, by decide, by decide⟩

/-- Claim C4 as amended: for every simulated update, the phases are
reported in the fixed order downloading, installing, rebooting, terminal
(success or failure as decided), with none skipped, repeated or reordered —
except that when the outcome is failure and the failure-log upload fails,
reporting is aborted and the sequence is exactly downloading, installing,
rebooting with the terminal phase omitted.  Download failures and status
report failures never change the reported sequence. -/
theorem C4_phase_order_amended (did failMsg : String)
    (failing downloadOk uploadOk : Bool) (reportOk : String → Bool) :
    reportedPhases
        (performFakeUpdateTrace did failMsg failing downloadOk uploadOk reportOk)
      = if failing && !uploadOk then ["downloading", "installing", "rebooting"]
        else ["downloading", "installing", "rebooting",
          if failing then "failure" else "success"] := by
  cases failing <;> cases uploadOk <;> rfl

/-- Claim C5: for a simulated update whose decided outcome is failure, the
synthetic failure log (carrying the deployment identifier and the
configured failure message) is uploaded after the rebooting report and
before the failure report; if the upload errors, no further status report
happens for this update — in particular the failure phase is never
reported; and status-report errors (`reportOk` arbitrary) never shorten
the trace.  Both traces are given in full. -/
theorem C5_log_upload_aborts (did failMsg : String) (d : Bool)
    (reportOk : String → Bool) :
    performFakeUpdateTrace did failMsg true d true reportOk
      = [Ev.download d,
         Ev.report ⟨did, "downloading", "running predownload script"⟩
           (reportOk "downloading"),
         Ev.report ⟨did, "installing", "running preinstalling script"⟩
           (reportOk "installing"),
         Ev.report ⟨did, "rebooting", "running prerebooting script"⟩
           (reportOk "rebooting"),
         Ev.uploadLog did failMsg,
         Ev.report ⟨did, "failure", ""⟩ (reportOk "failure")] ∧
    performFakeUpdateTrace did failMsg true d false reportOk
      = [Ev.download d,
         Ev.report ⟨did, "downloading", "running predownload script"⟩
           (reportOk "downloading"),
         Ev.report ⟨did, "installing", "running preinstalling script"⟩
           (reportOk "installing"),
         Ev.report ⟨did, "rebooting", "running prerebooting script"⟩
           (reportOk "rebooting"),
         Ev.uploadLog did failMsg] := by
  exact ⟨rfl, rfl⟩

/-- Claim C9 names a real code bug: the `substate` CLI flag
(`substateReporting`, main.go line 70, default false, help text "send
substate reporting") is never consulted anywhere in the program, so with
the toggle disabled the downloading, installing and rebooting reports still
carry their sub-state description — the report built for the downloading
phase holds "running predownload script", not the empty string the claim
requires; only the terminal phase carries an empty sub-state. -/
theorem C9_substate_toggle_ignored :
    substateFor "downloading" = "running predownload script" ∧
    substateFor "downloading" ≠ "" ∧
    substateFor "installing" = "running preinstalling script" ∧
    substateFor "rebooting" = "running prerebooting script" ∧
    substateFor "failure" = "" ∧
    substateFor "success" = "" ∧
    (performFakeUpdateTrace "d1" "boom" false true true (fun _ => true)).contains
      (Ev.report ⟨"d1", "downloading", "running predownload script"⟩ true)
      = true := by
  refine ⟨rfl, by decide, rfl, rfl, rfl, rfl, by decide⟩

/-- Per-launch delay in seconds (main.go line 101):
`delta := time.Duration(startupInterval / menderClientCount)`, Go integer
division, later multiplied by `time.Second`. -/
def launchDelta (S N : Nat) : Nat :=
  S / N

/-- Scheduled launch time, in seconds from process start, of device `i`
(0-indexed): the launcher loop (main.go lines 102-127) sleeps `delta`
seconds before each `go clientScheduler(...)`. -/
def launchTime (S N : Nat) : Nat → Nat
  | 0 => launchDelta S N
  | i + 1 => launchTime S N i + launchDelta S N

lemma launchTime_closed (S N : Nat) : ∀ i, launchTime S N i = (i + 1) * launchDelta S N := by
  intro i
  induction i with
  | zero => simp [launchTime]
  | succ i ih =>
    show launchTime S N i + launchDelta S N = (i + 1 + 1) * launchDelta S N
    rw [ih]
    ring

/-- Claim C6 is false as stated: with spread `S = 5` seconds and fleet size
`N = 2`, the second device launches `5 / 2 = 2` seconds after the first
(Go integer division), which is *earlier* than the claimed bound
`(N-1) * S/N = 2.5` seconds; in integers, the offset times `N` is `4`,
strictly below `(N-1) * S = 5`. -/
theorem C6_stagger_counterexample :
    launchTime 5 2 1 - launchTime 5 2 0 = 2 ∧
    (launchTime 5 2 1 - launchTime 5 2 0) * 2 < (2 - 1) * 5 := by
  refine ⟨by decide, by decide⟩

/-- Claim C6 as amended: each device launch is delayed by `S / N` seconds
— integer division, i.e. the floor of spread over fleet size — relative to
the previous one, so device `k` (0-indexed) launches exactly `k * (S / N)`
seconds after the first; this matches the claimed `(N-1) * S/N` bound for
the last device exactly when `N` divides `S`, and otherwise undershoots
it. -/
theorem C6_stagger_amended (S N k : Nat) (_hN : 0 < N) :
    launchTime S N k - launchTime S N 0 = k * (S / N) ∧
    (N ∣ S → N * (launchTime S N k - launchTime S N 0) = k * S) := by
  have hoff : launchTime S N k - launchTime S N 0 = k * (S / N) := by
    rw [launchTime_closed, launchTime_closed]
    show (k + 1) * launchDelta S N - (0 + 1) * launchDelta S N = k * (S / N)
    have : (k + 1) * launchDelta S N = k * launchDelta S N + launchDelta S N := by
      ring
    rw [this]
    simp [launchDelta]
  refine ⟨hoff, fun hdvd => ?_⟩
  rw [hoff, ← Nat.mul_assoc, Nat.mul_comm N k, Nat.mul_assoc,
    Nat.mul_div_cancel' hdvd]

/-- Concrete instance of the amended claim C6: spread 6 seconds, fleet
size 3: the third device launches `2 * 2 = 4` seconds after the first, and
since 3 divides 6 this equals the claimed `(3-1) * 6/3` seconds. -/
theorem C6_stagger_amended_witness :
    launchTime 6 3 2 - launchTime 6 3 0 = 2 * (6 / 3) ∧
    (3 ∣ 6 → 3 * (launchTime 6 3 2 - launchTime 6 3 0) = 2 * 6) :=
  C6_stagger_amended 6 3 2 (by decide)

/-- Phase dwell before each phase transition, in nanoseconds (main.go line
270): `time.Sleep(15 + time.Duration(mrand.Intn(maxWaitSteps))*time.Second)`.
`mrand.Intn(maxWaitSteps)` is uniform on the integers `[0, maxWaitSteps)`;
`time.Duration(r)*time.Second` is `r` seconds in nanoseconds; the untyped
constant `15` is a `time.Duration` of 15 *nanoseconds*. -/
def phaseSleepNanos (r : Nat) : Nat :=
  15 + r * 1000000000

/-- Claim C8 is false as stated: the dwell drawn with `r = 0` lasts
15 nanoseconds, which is shorter than one second — so for every positive
lower bound `minDelay` (in particular the 15 seconds suggested by the
constant in the source) the claimed interval `[minDelay, maxWaitSteps)`
seconds is violated. -/
theorem C8_dwell_counterexample :
    phaseSleepNanos 0 = 15 ∧
    phaseSleepNanos 0 < 1 * 1000000000 ∧
    phaseSleepNanos 0 < 15 * 1000000000 := by
  refine ⟨by decide, by decide, by decide⟩

/-- Claim C8 as amended: before each phase transition the device sleeps
15 nanoseconds plus `r` whole seconds, where `r` is drawn uniformly from
the integers `[0, maxWaitSteps)`; every dwell therefore lies in
`[15 ns, maxWaitSteps seconds)`, with no 15-second (or any other
second-scale) minimum — the constant 15 in the source is interpreted by Go
as nanoseconds. -/
theorem C8_dwell_amended (maxWaitSteps r : Nat) (h : r < maxWaitSteps) :
    phaseSleepNanos r = r * 1000000000 + 15 ∧
    15 ≤ phaseSleepNanos r ∧
    phaseSleepNanos r < maxWaitSteps * 1000000000 := by
  unfold phaseSleepNanos
  refine ⟨by omega, by omega, ?_⟩
  have : r + 1 ≤ maxWaitSteps := h
  calc 15 + r * 1000000000 < (r + 1) * 1000000000 := by omega
    _ ≤ maxWaitSteps * 1000000000 := Nat.mul_le_mul_right _ this

/-- Concrete instance of the amended claim C8: `maxWaitSteps = 10`,
`r = 3`: the dwell is 3 seconds and 15 nanoseconds, within
`[15 ns, 10 s)`. -/
theorem C8_dwell_amended_witness :
    phaseSleepNanos 3 = 3 * 1000000000 + 15 ∧
    15 ≤ phaseSleepNanos 3 ∧
    phaseSleepNanos 3 < 10 * 1000000000 :=
  C8_dwell_amended 10 3 (by decide)

/-- Result of one authorization attempt (`authReq.Request`, main.go line
205): `none` models a request error, `some t` models a nil error with
response body `t` (possibly empty). -/
def isAuthSuccess (resp : Option String) : Bool :=
  match resp with
  | some t => !t.isEmpty
  | none => false

/-- The retry loop of `clientAuthenticate` (main.go lines 204-212), run
against a finite prefix of attempt results: it returns the first response
that is a nil error with a non-empty token, paired with the number of
failed attempts before it (each failed attempt is followed by a
`pollFrequency`-second sleep before the retry); `none` means every attempt
in the prefix failed and the loop is still retrying. -/
def clientAuthenticate : List (Option String) → Option (String × Nat)
  | [] => none
  | resp :: rest =>
    match resp with
    | some t =>
      if t.isEmpty then
        (clientAuthenticate rest).map (fun p => (p.1, p.2 + 1))
      else
        some (t, 0)
    | none => (clientAuthenticate rest).map (fun p => (p.1, p.2 + 1))

/-- `clientScheduler` (main.go lines 157-181): the token handed to the
Active select loop is exactly what `clientAuthenticate` returned; the loop
(inventory and update-check tickers) is entered only after that call
returns. -/
def clientScheduler (resps : List (Option String)) : Option String :=
  (clientAuthenticate resps).map Prod.fst

/-- Claim C7: the authentication routine returns exactly at the first
attempt whose authorization response is a non-empty token with no error;
every earlier attempt fails and is followed by one fixed
`pollFrequency`-second backoff (so `k` backoff sleeps happen before
success), the loop never gives up early, and the device's Active loop
starts with precisely the token of that first successful attempt. -/
theorem C7_auth_loop (resps : List (Option String)) (k : Nat) (t : String)
    (hk : k < resps.length)
    (hfail : ∀ j, j < k → isAuthSuccess (resps.getD j none) = false)
    (hsucc : resps.getD k none = some t)
    (ht : t.isEmpty = false) :
    clientAuthenticate resps = some (t, k) ∧ clientScheduler resps = some t := by
  have hmain : clientAuthenticate resps = some (t, k) := by
    induction resps generalizing k with
    | nil => exact absurd hk (by simp)
    | cons resp rest ih =>
      cases k with
      | zero =>
        have : resp = some t := by simpa using hsucc
        subst this
        simp [clientAuthenticate, ht]
      | succ k =>
        have hfirst : isAuthSuccess resp = false := by
          simpa using hfail 0 (Nat.succ_pos k)
        have hrest : clientAuthenticate rest = some (t, k) := by
          apply ih
          · simpa using hk
          · intro j hj
            simpa using hfail (j + 1) (by omega)
          · simpa using hsucc
        cases resp with
        | none => simp [clientAuthenticate, hrest]
        | some t' =>
          have hemp : t'.isEmpty = true := by
            simpa [isAuthSuccess] using hfirst
          simp [clientAuthenticate, hemp, hrest]
  exact ⟨hmain, by simp [clientScheduler, hmain]⟩

/-- Concrete instance of claim C7, matching the spec scenario
"authentication fails twice then succeeds": an errored attempt, then an
empty-token attempt, then the token "tok" — the loop returns "tok" after
exactly two failed attempts, and the Active loop starts with "tok". -/
theorem C7_auth_loop_witness :
    clientAuthenticate [none, some "", some "tok"] = some ("tok", 2) ∧
    clientScheduler [none, some "", some "tok"] = some "tok" :=
  C7_auth_loop [none, some "", some "tok"] 2 "tok" (by decide)
    (by decide) (by decide) (by decide)

/-- Split a character list at every occurrence of `sep`, keeping empty
pieces, exactly like Go's `strings.Split` with a one-character separator:
the result always has one more piece than there are separators, and
splitting the empty string yields one empty piece. -/
def splitChars (sep : Char) : List Char → List (List Char)
  | [] => [[]]
  | c :: rest =>
    if c = sep then
      [] :: splitChars sep rest
    else
      match splitChars sep rest with
      | [] => [[c]]
      | piece :: pieces => (c :: piece) :: pieces

/-- Go's `strings.Split(s, sep)` for a one-character separator, on Lean
strings. -/
def goSplit (sep : Char) (s : String) : List String :=
  (splitChars sep s.data).map (fun cs => String.mk cs)

/-- The value stored in a `client.InventoryAttribute` (an `interface{}` in
Go): the parsed items carry strings, the trailing freshness attribute
carries the Unix timestamp as an integer. -/
inductive InvValue where
  | str (s : String)
  | int (n : Int)
deriving DecidableEq, Repr

/-- A `client.InventoryAttribute` as built by `parseInventoryItems`. -/
structure InventoryAttribute where
  name : String
  value : InvValue
deriving DecidableEq, Repr

/-- The loop of `parseInventoryItems` (main.go lines 348-356) over the
comma-separated entries: `pair := strings.Split(e, ":")` (never nil, so the
`if pair != nil` guard always passes), `key := pair[0]`,
`value := pair[1]`.  When the entry holds no colon the split has a single
piece and `pair[1]` is an out-of-bounds index — a runtime panic, modelled
as `none`. -/
def parseEntries : List String → Option (List InventoryAttribute)
  | [] => some []
  | e :: rest =>
    match goSplit ':' e with
    | k :: v :: _ =>
      (parseEntries rest).map (fun l => ⟨k, InvValue.str v⟩ :: l)
    | _ => none

/-- `parseInventoryItems` (main.go lines 346-361): parse the configured
`-inventory` string and append the dynamic attribute
`{Name: "time", Value: time.Now().Unix()}`; `now` stands for the current
Unix timestamp. -/
def parseInventoryItems (inventoryItems : String) (now : Int) :
    Option (List InventoryAttribute) :=
  (parseEntries (goSplit ',' inventoryItems)).map
    (fun l => l ++ [⟨"time", InvValue.int now⟩])

lemma parseEntries_eq_none_iff (l : List String) :
    parseEntries l = none ↔ ∃ e ∈ l, (goSplit ':' e).length ≤ 1 := by
  induction l with
  | nil => simp [parseEntries]
  | cons e rest ih =>
    rcases hsplit : goSplit ':' e with _ | ⟨k, _ | ⟨v, tail⟩⟩
    · simp [parseEntries, hsplit]
    · simp [parseEntries, hsplit]
    · simp only [parseEntries, hsplit, Option.map_eq_none', ih,
        List.mem_cons, exists_eq_or_imp]
      constructor
      · intro hex
        exact Or.inr hex
      · intro hor
        rcases hor with hlen | hex
        · simp at hlen
        · exact hex

lemma parseEntries_eq_some (l : List String)
    (h : ∀ e ∈ l, 2 ≤ (goSplit ':' e).length) :
    parseEntries l = some (l.map (fun e =>
      ⟨(goSplit ':' e).getD 0 "", InvValue.str ((goSplit ':' e).getD 1 "")⟩)) := by
  induction l with
  | nil => simp [parseEntries]
  | cons e rest ih =>
    have he : 2 ≤ (goSplit ':' e).length := h e (List.mem_cons_self e rest)
    rcases hsplit : goSplit ':' e with _ | ⟨k, _ | ⟨v, tail⟩⟩
    · rw [hsplit] at he
      simp at he
    · rw [hsplit] at he
      simp at he
    · have hrest := ih (fun x hx => h x (List.mem_cons_of_mem e hx))
      simp [parseEntries, hsplit, hrest]

/-- Claim C10: `parseInventoryItems` panics (out-of-bounds index `pair[1]`)
exactly when some comma-separated entry of the configured inventory list
splits on ":" into fewer than two pieces, i.e. contains no colon; when
every entry contains at least one colon the result is defined and is the
configured key:value attributes in order — key before the first colon,
value between the first and second — followed by the single freshness
attribute named "time" holding the current timestamp. -/
theorem C10_parseInventoryItems_safety (items : String) (now : Int) :
    (parseInventoryItems items now = none
      ↔ ∃ e ∈ goSplit ',' items, (goSplit ':' e).length ≤ 1) ∧
    ((∀ e ∈ goSplit ',' items, 2 ≤ (goSplit ':' e).length) →
      parseInventoryItems items now =
        some ((goSplit ',' items).map (fun e =>
            ⟨(goSplit ':' e).getD 0 "", InvValue.str ((goSplit ':' e).getD 1 "")⟩)
          ++ [⟨"time", InvValue.int now⟩])) := by
  constructor
  · rw [parseInventoryItems, Option.map_eq_none']
    exact parseEntries_eq_none_iff (goSplit ',' items)
  · intro h
    rw [parseInventoryItems, parseEntries_eq_some (goSplit ',' items) h]
    rfl

/-- Concrete instance of claim C10 on the well-formed inventory string
"a:1,b:2" at timestamp 7: every entry has a colon, and the parse yields
the two configured attributes followed by the "time" attribute. -/
theorem C10_parseInventoryItems_safety_witness :
    (∀ e ∈ goSplit ',' "a:1,b:2", 2 ≤ (goSplit ':' e).length) ∧
    parseInventoryItems "a:1,b:2" 7 =
      some [⟨"a", InvValue.str "1"⟩, ⟨"b", InvValue.str "2"⟩,
        ⟨"time", InvValue.int 7⟩] :=
  ⟨by decide,
    ((C10_parseInventoryItems_safety "a:1,b:2" 7).2 (by decide)).trans (by decide)⟩

end StressClient
